import Mathlib

set_option autoImplicit false

/-!
# Driving-school backend: client routes

A shallow embedding of `routes/clientRoute.js` and `models/Client.js`.

* The MongoDB collection is a list of documents in natural (insertion) order.
* Every handler is a function from the world before the request to the response and the
  world after it.  The world holds the collection, the ObjectId generator, the local
  `uploads/` directory and the log of URLs the object store has returned.
* Library code that is not part of the repository (bcryptjs, jsonwebtoken, the Cloudinary
  uploader, the JavaScript `Date` constructor and the casts Mongoose applies to schema
  paths) is taken as a parameter, the structure `Env`.
* Request bodies are flat objects with string values.
* A route parameter `:id` is the string of the URL; Mongoose casts it to an ObjectId and
  rejects when the cast fails.
* `req.files` is present only for a multipart request; for any other request the multer
  middleware leaves it `undefined`.
-/

namespace DrivingBackend

/-! ## Data model (`models/Client.js`) -/

/-- A MongoDB ObjectId.  Only equality and freshness matter. -/
abbrev ObjectId := Nat

/-- A JavaScript `Date`: `some ms` is a time value in milliseconds since the epoch and
`none` is the Invalid Date.  For a stored Date path `none` is `null` or absent. -/
abbrev JsDate := Option Int

/-- A stored document of the `Client` model, one field per path of `clientSchema`.
For an optional path `none` stands for `null` or absent.  The schema declares no
`createdAt` path and is built without the `timestamps` option. -/
structure Client where
  _id : ObjectId
  firstName : Option String
  mobile : String
  password : String
  applicationNo : Option String
  photo : Option String
  phone : Option String
  relation : Option String
  permanentAddress : Option String
  temporaryAddress : Option String
  dob : JsDate
  classOfVehicle : Option String
  dateOfEnrolment : JsDate
  learnersLicenseNo : Option String
  expiryOfLL : JsDate
  mainTestDate : JsDate
  licenseFile : Option String
  totalFee : Option Int
  paidFee : Option Int
  feeDiscount : Option Int
  totalClasses : Option Int
  classesAttended : Option Int
deriving DecidableEq, Repr

/-- A request body: a flat object, as an association list from keys to string values. -/
abbrev Body := List (String × String)

/-- A file staged on local disk by multer. -/
structure File where
  path : String
deriving DecidableEq, Repr

/-- The `req.files` object of a multipart request handled by
`upload.fields([photo, licenseFile])`, each with `maxCount: 1`. -/
structure Files where
  photo : Option File
  licenseFile : Option File
deriving DecidableEq, Repr

/-- A multipart request without file parts. -/
def Files.none : Files := ⟨Option.none, Option.none⟩

/-- The JSON payload of a response, one constructor per shape the handlers send. -/
inductive Payload where
  | message (message : String)
  | messageError (message : String) (error : String)
  | messageClient (message : String) (client : Client)
  | tokenClient (token : String) (client : Client)
  | clients (clients : List Client)
  | client (client : Client)
  | messageUpdated (message : String) (updatedClient : Client)
deriving DecidableEq, Repr

/-- The `message` member of a payload, when it has one. -/
def Payload.message? : Payload → Option String
  | .message m => some m
  | .messageError m _ => some m
  | .messageClient m _ => some m
  | .messageUpdated m _ => some m
  | .tokenClient _ _ => Option.none
  | .clients _ => Option.none
  | .client _ => Option.none

/-- The `token` member of a payload, when it has one. -/
def Payload.token? : Payload → Option String
  | .tokenClient t _ => some t
  | _ => Option.none

/-- An HTTP response: status code and JSON payload. -/
structure Response where
  status : Nat
  payload : Payload
deriving DecidableEq, Repr

/-- The libraries the routes call. -/
structure Env where
  /-- Models `bcrypt.hash(password, rounds)`; the third argument is the random salt drawn
  for the call. -/
  bcryptHash : String → Nat → Nat → String
  /-- A bcrypt hash is never the empty string. -/
  bcryptHash_ne : ∀ password rounds salt, bcryptHash password rounds salt ≠ ""
  /-- Models `bcrypt.compare(password, hash)`; the password may be `undefined`, and the
  call may reject. -/
  bcryptCompare : Option String → String → Except String Bool
  /-- Models `jwt.sign` of the id claim with `process.env.JWT_SECRET` and a one day
  expiry; it throws when the secret is not configured. -/
  jwtSign : ObjectId → Except String String
  /-- Models `cloudinary.uploader.upload(path, folder)`: the `secure_url` of the stored
  object, or the rejection message. -/
  cloudinaryUpload : String → String → Except String String
  /-- Models `new Date(string)`. -/
  newDate : String → JsDate
  /-- The cast Mongoose applies to a string written to a Date path: a cast error, `null`,
  or a time value. -/
  castDate : String → Except String JsDate
  /-- The cast Mongoose applies to a string written to a Number path. -/
  castNumber : String → Except String (Option Int)
  /-- The cast Mongoose applies to a string written to the `_id` path. -/
  castObjectId : String → Option ObjectId

/-- The state the handlers read and write. -/
structure World where
  /-- The `clients` collection in natural order. -/
  db : List Client
  /-- The next ObjectId handed out by `new Client(..)`. -/
  nextId : ObjectId
  /-- The paths that exist under the local `uploads/` directory. -/
  fs : List String
  /-- The `secure_url`s the object store has returned so far. -/
  cloud : List String
deriving DecidableEq, Repr

/-- The world at first start: nothing stored anywhere. -/
def World.empty : World := ⟨[], 0, [], []⟩

/-- Representation invariant of the collection: the `_id` index and the unique index on
`mobile` hold, and the ObjectId generator is ahead of every stored id. -/
structure World.WF (w : World) : Prop where
  ids_nodup : (w.db.map Client._id).Nodup
  mobiles_nodup : (w.db.map Client.mobile).Nodup
  ids_lt : ∀ c ∈ w.db, c._id < w.nextId

/-! ## JavaScript and Mongoose primitives -/

/-- JavaScript truthiness of a body member: `undefined` and the empty string are falsy. -/
def truthy : Option String → Bool
  | Option.none => false
  | some s => s != ""

/-- The expression `a || b` on strings. -/
def jsOr (a b : String) : String := if a = "" then b else a

/-- Models `Client.findOne(mobile)`: the first document whose `mobile` equals the given
value.  An `undefined` value matches only documents lacking the path, and every stored
document has it. -/
def findOne (db : List Client) (mobile : Option String) : Option Client :=
  match mobile with
  | Option.none => Option.none
  | some m => db.find? (fun c => c.mobile == m)

/-- Models `Client.findById(id)`. -/
def findById (db : List Client) (id : ObjectId) : Option Client :=
  db.find? (fun c => c._id == id)

/-- Models `doc.save()` of a new document: the `required` validators of `mobile` and
`password`, then the insert, which the `_id` index and the unique index on `mobile` can
reject. -/
def save (db : List Client) (c : Client) : Except String (List Client) :=
  if c.mobile = "" ∨ c.password = "" then .error "Client validation failed"
  else if db.any (fun d => d._id == c._id) then .error "E11000 duplicate key error: _id"
  else if db.any (fun d => d.mobile == c.mobile) then
    .error "E11000 duplicate key error: mobile"
  else .ok (db ++ [c])

/-- Models `fs.unlinkSync(path)`: it throws when the path does not exist. -/
def unlinkSync (fs : List String) (path : String) : Except String (List String) :=
  if path ∈ fs then .ok (fs.erase path) else .error "ENOENT: no such file or directory"

/-- The document `new Client(mobile, password)` builds: the schema defaults apply to the
five Number paths, every other path is absent. -/
def Client.minimal (id : ObjectId) (mobile password : String) : Client :=
  { _id := id, firstName := none, mobile := mobile, password := password,
    applicationNo := none, photo := none, phone := none, relation := none,
    permanentAddress := none, temporaryAddress := none, dob := none,
    classOfVehicle := none, dateOfEnrolment := none, learnersLicenseNo := none,
    expiryOfLL := none, mainTestDate := none, licenseFile := none,
    totalFee := some 0, paidFee := some 0, feeDiscount := some 0,
    totalClasses := some 0, classesAttended := some 0 }

/-- The value a Date path takes when `new Client(..)` is given the body member. -/
def castDatePath (env : Env) : Option String → Except String JsDate
  | Option.none => .ok none
  | some s => env.castDate s

/-- The document `new Client(..)` builds in the create route.  Body members that are
`undefined` leave their path absent, the four Date paths are cast, `phone` is not among
the members the route reads, and `photo` and `licenseFile` take the upload results. -/
def Client.ofCreate (env : Env) (id : ObjectId) (body : Body) (firstName mobile : String)
    (hashedPassword : String) (photoUrl licenseUrl : Option String) :
    Except String Client := do
  let dob ← castDatePath env (body.lookup "dob")
  let dateOfEnrolment ← castDatePath env (body.lookup "dateOfEnrolment")
  let expiryOfLL ← castDatePath env (body.lookup "expiryOfLL")
  let mainTestDate ← castDatePath env (body.lookup "mainTestDate")
  pure { _id := id, firstName := some firstName, mobile := mobile,
         password := hashedPassword,
         applicationNo := body.lookup "applicationNo", photo := photoUrl, phone := none,
         relation := body.lookup "relation",
         permanentAddress := body.lookup "permanentAddress",
         temporaryAddress := body.lookup "temporaryAddress", dob := dob,
         classOfVehicle := body.lookup "classOfVehicle",
         dateOfEnrolment := dateOfEnrolment,
         learnersLicenseNo := body.lookup "learnersLicenseNo",
         expiryOfLL := expiryOfLL, mainTestDate := mainTestDate,
         licenseFile := licenseUrl,
         totalFee := some 0, paidFee := some 0, feeDiscount := some 0,
         totalClasses := some 0, classesAttended := some 0 }

/-! ## Multer staging (`multer.diskStorage`, lines 25-30) -/

/-- An incoming file part: its original name and the value of `Date.now()` when multer
names it. -/
structure Part where
  originalname : String
  now : Nat
deriving DecidableEq, Repr

/-- The staging path: destination `uploads/`, file name `now-originalname`. -/
def stagingPath (p : Part) : String :=
  "uploads/" ++ (toString p.now ++ "-" ++ p.originalname)

/-- Stages one optional part on disk. -/
def stage (fs : List String) : Option Part → Option File × List String
  | Option.none => (Option.none, fs)
  | some p => (some ⟨stagingPath p⟩, fs ++ [stagingPath p])

/-- The middleware `upload.fields([photo, licenseFile])`: every file part is written to
local disk before the handler runs. -/
def uploadFields (w : World) (photo licenseFile : Option Part) : Files × World :=
  let a := stage w.fs photo
  let b := stage a.2 licenseFile
  (⟨a.1, b.1⟩, { w with fs := b.2 })

/-- The file parts of a multipart request. -/
structure Parts where
  photo : Option Part
  licenseFile : Option Part
deriving DecidableEq, Repr

/-- The multer middleware on any request: `req.files` is set, and the parts staged, only
when the request is multipart (`some parts`); a request of another content type
(`none`), such as a JSON body, passes through with `req.files` left `undefined`. -/
def multer (w : World) : Option Parts → Option Files × World
  | Option.none => (Option.none, w)
  | some parts =>
    (some (uploadFields w parts.photo parts.licenseFile).1,
      (uploadFields w parts.photo parts.licenseFile).2)

/-! ## Upload of one attachment -/

/-- The block both attachment routes run for each of `photo` and `licenseFile`:
when the file is present, upload it, keep `result.secure_url`, then unlink the staging
file.  The world is returned as it stands when the block completes or throws. -/
def uploadAttachment (env : Env) (w : World) (file : Option File) (folder : String) :
    Except String (Option String) × World :=
  match file with
  | Option.none => (.ok none, w)
  | some f =>
    match env.cloudinaryUpload f.path folder with
    | .error e => (.error e, w)
    | .ok url =>
      let w1 := { w with cloud := w.cloud ++ [url] }
      match unlinkSync w1.fs f.path with
      | .error e => (.error e, w1)
      | .ok fs => (.ok (some url), { w1 with fs := fs })

/-! ## `POST /register` -/

/-- The register handler.  `others` is the effect of the requests that complete while this
one is suspended between its `findOne` and its `save`. -/
def registerWith (env : Env) (others : World → World) (w : World) (salt : Nat)
    (body : Body) : Response × World :=
  let mobile := body.lookup "mobile"
  let password := body.lookup "password"
  if !truthy mobile || !truthy password then
    (⟨400, .message "Mobile and password are required"⟩, w)
  else
    match findOne w.db mobile with
    | some _ => (⟨400, .message "Client already exists"⟩, w)
    | Option.none =>
      let w1 := others w
      let hashedPassword := env.bcryptHash (password.getD "") 10 salt
      let newClient := Client.minimal w1.nextId (mobile.getD "") hashedPassword
      let w2 := { w1 with nextId := w1.nextId + 1 }
      match save w2.db newClient with
      | .ok db =>
        (⟨201, .messageClient "Client registered successfully" newClient⟩,
          { w2 with db := db })
      | .error e => (⟨500, .messageError "Server error" e⟩, w2)

/-- The register handler when no other request interleaves. -/
def register (env : Env) (w : World) (salt : Nat) (body : Body) : Response × World :=
  registerWith env id w salt body

/-! ## `POST /login` -/

/-- The login handler. -/
def login (env : Env) (w : World) (body : Body) : Response × World :=
  let mobile := body.lookup "mobile"
  let password := body.lookup "password"
  match findOne w.db mobile with
  | Option.none => (⟨400, .message "Invalid mobile or password"⟩, w)
  | some client =>
    match env.bcryptCompare password (jsOr client.password "") with
    | .error e => (⟨500, .messageError "Server error" e⟩, w)
    | .ok false => (⟨400, .message "Invalid mobile or password"⟩, w)
    | .ok true =>
      match env.jwtSign client._id with
      | .error e => (⟨500, .messageError "Server error" e⟩, w)
      | .ok token => (⟨200, .tokenClient token client⟩, w)

/-! ## `POST /create` -/

/-- The create handler, after the multer middleware.  `others` is as in `registerWith`.
`reqFiles` is `req.files`: reading `req.files.photo` throws a TypeError when it is
`undefined`. -/
def createWith (env : Env) (others : World → World) (w : World) (salt : Nat)
    (body : Body) (reqFiles : Option Files) : Response × World :=
  let firstName := body.lookup "firstName"
  let mobile := body.lookup "mobile"
  let password := body.lookup "password"
  if !truthy firstName || !truthy mobile || !truthy password then
    (⟨400, .message "Name, Mobile & Password required"⟩, w)
  else
    match findOne w.db mobile with
    | some _ => (⟨400, .message "Client already exists"⟩, w)
    | Option.none =>
      let w1 := others w
      let hashedPassword := env.bcryptHash (password.getD "") 10 salt
      match reqFiles with
      | Option.none =>
        (⟨500, .messageError "Server error" "Cannot read properties of undefined"⟩, w1)
      | some files =>
        match uploadAttachment env w1 files.photo "driving_school/photos" with
        | (.error e, w2) => (⟨500, .messageError "Server error" e⟩, w2)
        | (.ok photoUrl, w2) =>
          match uploadAttachment env w2 files.licenseFile "driving_school/licenses" with
          | (.error e, w3) => (⟨500, .messageError "Server error" e⟩, w3)
          | (.ok licenseUrl, w3) =>
            let w4 := { w3 with nextId := w3.nextId + 1 }
            match Client.ofCreate env w3.nextId body (firstName.getD "") (mobile.getD "")
                hashedPassword photoUrl licenseUrl with
            | .error e => (⟨500, .messageError "Server error" e⟩, w4)
            | .ok newClient =>
              match save w4.db newClient with
              | .ok db =>
                (⟨201, .messageClient "Client created successfully" newClient⟩,
                  { w4 with db := db })
              | .error e => (⟨500, .messageError "Server error" e⟩, w4)

/-- The create handler when no other request interleaves. -/
def create (env : Env) (w : World) (salt : Nat) (body : Body) (reqFiles : Option Files) :
    Response × World :=
  createWith env id w salt body reqFiles

/-! ## `GET /` -/

/-- Reading the path `createdAt` of a stored document.  The schema has no such path, so
no document carries it. -/
def Client.createdAt (_c : Client) : JsDate := none

/-- The MongoDB order on the sort key: a missing value sorts below every date. -/
def keyLt : JsDate → JsDate → Bool
  | Option.none, some _ => true
  | some a, some b => decide (a < b)
  | _, Option.none => false

/-- Inserts a document into a list sorted by `createdAt` descending, ahead of the
documents whose key is not greater. -/
def insertDesc (c : Client) : List Client → List Client
  | [] => [c]
  | d :: ds => if keyLt c.createdAt d.createdAt then d :: insertDesc c ds else c :: d :: ds

/-- Models `.sort(createdAt: -1)`: a stable sort by descending `createdAt`, so that
documents with equal keys stay in natural order. -/
def sortByCreatedAtDesc (cs : List Client) : List Client :=
  cs.foldr insertDesc []

/-- The list handler. -/
def list (w : World) : Response × World :=
  (⟨200, .clients (sortByCreatedAtDesc w.db)⟩, w)

/-! ## `GET /:id` -/

/-- The get handler.  `param` is `req.params.id`; when its cast to an ObjectId fails,
`findById` rejects and the catch block answers 500 with the message of the error. -/
def get (env : Env) (w : World) (param : String) : Response × World :=
  match env.castObjectId param with
  | Option.none => (⟨500, .message "Cast to ObjectId failed"⟩, w)
  | some id =>
    match findById w.db id with
    | Option.none => (⟨404, .message "Client not found"⟩, w)
    | some client => (⟨200, .client client⟩, w)

/-! ## `DELETE /:id` -/

/-- The delete handler: `findByIdAndDelete` removes the first document with the id.
`param` is `req.params.id`; when its cast to an ObjectId fails, `findByIdAndDelete`
rejects and the catch block answers 500 with the message of the error. -/
def delete (env : Env) (w : World) (param : String) : Response × World :=
  match env.castObjectId param with
  | Option.none => (⟨500, .message "Cast to ObjectId failed"⟩, w)
  | some id =>
    match findById w.db id with
    | Option.none => (⟨404, .message "Client not found"⟩, w)
    | some _ =>
      (⟨200, .message "Client deleted successfully"⟩,
        { w with db := w.db.eraseP (fun c => c._id == id) })

/-! ## `PUT /update/:id` -/

/-- A value held in `updateData`: a string copied from the body, or a `Date` object. -/
inductive UVal where
  | str (s : String)
  | date (d : JsDate)
deriving DecidableEq, Repr

/-- The object `updateData`. -/
abbrev UpdateData := List (String × UVal)

/-- The assignment `updateData[key] = v`. -/
def setKey (key : String) (v : UVal) (u : UpdateData) : UpdateData :=
  (key, v) :: u.filter (fun p => p.1 != key)

/-- The spread copy of `req.body`. -/
def spread (body : Body) : UpdateData :=
  body.map (fun p => (p.1, UVal.str p.2))

/-- One round of the `forEach`: a truthy member `f` is replaced by `new Date` of it. -/
def convertDate (env : Env) (u : UpdateData) (f : String) : UpdateData :=
  match u.lookup f with
  | some (.str s) => if s != "" then setKey f (.date (env.newDate s)) u else u
  | _ => u

/-- The `forEach` over the four date members. -/
def convertDates (env : Env) (u : UpdateData) : UpdateData :=
  ["dob", "dateOfEnrolment", "expiryOfLL", "mainTestDate"].foldl (convertDate env) u

/-- The type of a schema path, with the assignment of a cast value to that path of a
document. -/
inductive PathKind where
  | string (set : String → Client → Client)
  | date (set : JsDate → Client → Client)
  | number (set : Option Int → Client → Client)

/-- The paths of `clientSchema`, in the order of `models/Client.js`. -/
def clientSchema : List (String × PathKind) :=
  [ ("firstName", .string (fun s c => { c with firstName := some s })),
    ("mobile", .string (fun s c => { c with mobile := s })),
    ("password", .string (fun s c => { c with password := s })),
    ("applicationNo", .string (fun s c => { c with applicationNo := some s })),
    ("photo", .string (fun s c => { c with photo := some s })),
    ("phone", .string (fun s c => { c with phone := some s })),
    ("relation", .string (fun s c => { c with relation := some s })),
    ("permanentAddress", .string (fun s c => { c with permanentAddress := some s })),
    ("temporaryAddress", .string (fun s c => { c with temporaryAddress := some s })),
    ("dob", .date (fun d c => { c with dob := d })),
    ("classOfVehicle", .string (fun s c => { c with classOfVehicle := some s })),
    ("dateOfEnrolment", .date (fun d c => { c with dateOfEnrolment := d })),
    ("learnersLicenseNo", .string (fun s c => { c with learnersLicenseNo := some s })),
    ("expiryOfLL", .date (fun d c => { c with expiryOfLL := d })),
    ("mainTestDate", .date (fun d c => { c with mainTestDate := d })),
    ("licenseFile", .string (fun s c => { c with licenseFile := some s })),
    ("totalFee", .number (fun n c => { c with totalFee := n })),
    ("paidFee", .number (fun n c => { c with paidFee := n })),
    ("feeDiscount", .number (fun n c => { c with feeDiscount := n })),
    ("totalClasses", .number (fun n c => { c with totalClasses := n })),
    ("classesAttended", .number (fun n c => { c with classesAttended := n })) ]

/-- The cast of the member of the update at one schema path, as the modification it makes
to the stored document.  An absent member modifies nothing.  A string is cast to the type
of the path.  A `Date` object is kept on a Date path when valid and is a cast error when
it is the Invalid Date; only the four Date paths ever hold a `Date` object, so the
remaining two cases do not arise. -/
def castPath (env : Env) (u : UpdateData) : String × PathKind →
    Except String (Client → Client)
  | (key, kind) =>
    match u.lookup key, kind with
    | Option.none, _ => .ok id
    | some (.str s), .string set => .ok (set s)
    | some (.str s), .date set => (env.castDate s).map set
    | some (.str s), .number set => (env.castNumber s).map set
    | some (.date (some ms)), .date set => .ok (set (some ms))
    | some (.date Option.none), .date _ => .error "Cast to date failed"
    | some (.date _), .string _ => .error "Cast to string failed"
    | some (.date _), .number _ => .error "Cast to Number failed"

/-- The member `_id` of the update: it must cast to an ObjectId, and MongoDB rejects a
write that would change the immutable `_id`. -/
def castIdPath (env : Env) (id : ObjectId) (u : UpdateData) : Except String Unit :=
  match u.lookup "_id" with
  | Option.none => .ok ()
  | some (.str s) =>
    match env.castObjectId s with
    | Option.none => .error "Cast to ObjectId failed"
    | some j => if j = id then .ok () else .error "the immutable field _id would change"
  | some (.date _) => .error "Cast to ObjectId failed"

/-- Runs the casts in order: the first error wins, otherwise the modifications compose. -/
def sequenceCasts : List (Except String (Client → Client)) →
    Except String (Client → Client)
  | [] => .ok id
  | r :: rs =>
    match r with
    | .error e => .error e
    | .ok g =>
      match sequenceCasts rs with
      | .error e => .error e
      | .ok h => .ok (h ∘ g)

/-- The cast of `updateData` against `clientSchema` in strict mode: members that are not
schema paths are dropped, every other member is cast to the type of its path.  The result
is the modification the update applies to the stored document. -/
def castUpdate (env : Env) (id : ObjectId) (u : UpdateData) :
    Except String (Client → Client) :=
  match castIdPath env id u with
  | .error e => .error e
  | .ok () => sequenceCasts (clientSchema.map (castPath env u))

/-- Replaces the first document with the given id. -/
def replaceFirst (id : ObjectId) (c : Client) : List Client → List Client
  | [] => []
  | d :: ds => if d._id = id then c :: ds else d :: replaceFirst id c ds

/-- Models `Client.findByIdAndUpdate(req.params.id, updateData, new: true)`: the route
parameter is cast to an ObjectId, the update is cast, the document is looked up, the
modified document replaces it unless the unique index on `mobile` rejects the write.
The result is the updated document and the new collection, or `none` when no document
has the id. -/
def findByIdAndUpdate (env : Env) (db : List Client) (param : String) (u : UpdateData) :
    Except String (Option (Client × List Client)) :=
  match env.castObjectId param with
  | Option.none => .error "Cast to ObjectId failed"
  | some id =>
    match castUpdate env id u with
    | .error e => .error e
    | .ok f =>
      match findById db id with
      | Option.none => .ok none
      | some c =>
        if db.any (fun d => d._id != id && d.mobile == (f c).mobile) then
          .error "E11000 duplicate key error: mobile"
        else .ok (some (f c, replaceFirst id (f c) db))

/-- The member assignment after an upload: `updateData[key] = result.secure_url` when the
file was present. -/
def mergeUrl (key : String) (url : Option String) (u : UpdateData) : UpdateData :=
  match url with
  | Option.none => u
  | some s => setKey key (.str s) u

/-- The update handler, after the multer middleware.  `param` is `req.params.id` and
`reqFiles` is `req.files`: reading `req.files.photo` throws a TypeError when it is
`undefined`, and the catch block answers 500 with the message of the error. -/
def update (env : Env) (w : World) (param : String) (body : Body)
    (reqFiles : Option Files) : Response × World :=
  let updateData := convertDates env (spread body)
  match reqFiles with
  | Option.none => (⟨500, .message "Cannot read properties of undefined"⟩, w)
  | some files =>
    match uploadAttachment env w files.photo "driving_school/photos" with
    | (.error e, w1) => (⟨500, .message e⟩, w1)
    | (.ok photoUrl, w1) =>
      let updateData := mergeUrl "photo" photoUrl updateData
      match uploadAttachment env w1 files.licenseFile "driving_school/licenses" with
      | (.error e, w2) => (⟨500, .message e⟩, w2)
      | (.ok licenseUrl, w2) =>
        let updateData := mergeUrl "licenseFile" licenseUrl updateData
        match findByIdAndUpdate env w2.db param updateData with
        | .error e => (⟨500, .message e⟩, w2)
        | .ok Option.none => (⟨404, .message "Client not found"⟩, w2)
        | .ok (some (updatedClient, db)) =>
          (⟨200, .messageUpdated "Client updated successfully" updatedClient⟩,
            { w2 with db := db })

/-! ## The router -/

/-- A request to one of the client routes.  `salt` is the randomness bcrypt draws while
the request is served; `parts` are the file parts of a multipart request and `none` for a
request of another content type; `param` is the `:id` segment of the URL. -/
inductive Request where
  | register (salt : Nat) (body : Body)
  | login (body : Body)
  | create (salt : Nat) (body : Body) (parts : Option Parts)
  | list
  | get (param : String)
  | update (param : String) (body : Body) (parts : Option Parts)
  | delete (param : String)

/-- Serves one request: the middleware of the route, then its handler. -/
def step (env : Env) (w : World) : Request → Response × World
  | .register salt body => register env w salt body
  | .login body => login env w body
  | .create salt body parts => create env (multer w parts).2 salt body (multer w parts).1
  | .list => list w
  | .get param => get env w param
  | .update param body parts =>
    update env (multer w parts).2 param body (multer w parts).1
  | .delete param => delete env w param

/-- The world after serving a sequence of requests one after the other. -/
def run (env : Env) (w : World) (reqs : List Request) : World :=
  reqs.foldl (fun w r => (step env w r).2) w

/-! ## A concrete environment -/

/-- The number of days from 1970-01-01 to the given civil date. -/
def daysFromCivil (y m d : Int) : Int :=
  let y1 := if m ≤ 2 then y - 1 else y
  let era := y1 / 400
  let yoe := y1 - era * 400
  let mp := if m > 2 then m - 3 else m + 9
  let doy := (153 * mp + 2) / 5 + d - 1
  let doe := yoe * 365 + yoe / 4 - yoe / 100 + doy
  era * 146097 + doe - 719468

/-- The value of a hexadecimal digit. -/
def hexDigit? (c : Char) : Option Nat :=
  if c.isDigit then some (c.toNat - 48)
  else if 'a'.toNat ≤ c.toNat ∧ c.toNat ≤ 'f'.toNat then some (c.toNat - 87)
  else if 'A'.toNat ≤ c.toNat ∧ c.toNat ≤ 'F'.toNat then some (c.toNat - 55)
  else Option.none

/-- The value of a string of hexadecimal digits, `none` when another character occurs. -/
def hexValue? (cs : List Char) : Option Nat :=
  cs.foldl (fun acc c =>
    match acc, hexDigit? c with
    | some n, some d => some (n * 16 + d)
    | _, _ => Option.none) (some 0)

/-- The ObjectId a string names: exactly 24 hexadecimal digits, read as a number. -/
def objectIdOfString (s : String) : Option ObjectId :=
  if s.length = 24 then hexValue? s.data else Option.none

/-- The value of a string of decimal digits, `none` when another character occurs. -/
def digits? (cs : List Char) : Option Nat :=
  cs.foldl (fun acc c =>
    match acc with
    | Option.none => Option.none
    | some n => if c.isDigit then some (n * 10 + (c.toNat - 48)) else Option.none) (some 0)

/-- The time value of a date-only ISO string `YYYY-MM-DD`, read as UTC midnight; every
other string is the Invalid Date. -/
def isoDate (s : String) : JsDate :=
  match s.data with
  | [y1, y2, y3, y4, '-', m1, m2, '-', d1, d2] =>
    match digits? [y1, y2, y3, y4], digits? [m1, m2], digits? [d1, d2] with
    | some y, some m, some d =>
      if 1 ≤ m ∧ m ≤ 12 ∧ 1 ≤ d ∧ d ≤ 31 then
        some (daysFromCivil y m d * 86400000)
      else Option.none
    | _, _, _ => Option.none
  | _ => Option.none

/-- The hash of the sample environment: a marker in front of the password. -/
def sampleHash (password : String) (_rounds _salt : Nat) : String :=
  "$2a$10$" ++ password

/-- A sample environment in which every library call succeeds. -/
def sampleEnv : Env where
  bcryptHash := sampleHash
  bcryptHash_ne := by
    intro password rounds salt h
    have h2 := congrArg String.length h
    simp only [sampleHash, String.length_append] at h2
    have h3 : ("$2a$10$".length + password.length) ≠ "".length := by
      have : "$2a$10$".length = 7 := by decide
      have : "".length = 0 := by decide
      omega
    exact h3 h2
  bcryptCompare := fun p h =>
    match p with
    | Option.none => .error "Illegal arguments: undefined, string"
    | some s => .ok (h == sampleHash s 10 0)
  jwtSign := fun _ => .ok "signed-token"
  cloudinaryUpload := fun path folder =>
    .ok ("https://res.cloudinary.com/" ++ folder ++ "/" ++ path)
  newDate := isoDate
  castDate := fun s =>
    if s = "" then .ok none
    else match isoDate s with
      | Option.none => .error "Cast to date failed"
      | some ms => .ok (some ms)
  castNumber := fun s =>
    if s = "" then .ok none
    else match digits? s.data with
      | Option.none => .error "Cast to Number failed"
      | some n => .ok (some (n : Int))
  castObjectId := objectIdOfString

/-- The sample environment with the object store unreachable. -/
def offlineEnv : Env :=
  { sampleEnv with cloudinaryUpload := fun _ _ => .error "connect ETIMEDOUT" }

/-- The sample store: one client registered into the empty world. -/
def sampleWorld : World :=
  (register sampleEnv World.empty 7 [("mobile", "9990001111"), ("password", "pass123")]).2

/-- A modification that leaves `_id` alone. -/
def KeepsId (g : Client → Client) : Prop := ∀ c, (g c)._id = c._id

/-! ## Basic facts -/

theorem sampleWorld_WF : sampleWorld.WF :=
  ⟨by decide, by decide, by decide⟩

theorem jsOr_empty (a : String) : jsOr a "" = a := by
  unfold jsOr
  split
  · next h => exact h.symm
  · rfl

theorem findById_eq_none_iff (db : List Client) (i : ObjectId) :
    findById db i = none ↔ ∀ c ∈ db, c._id ≠ i := by
  simp [findById, List.find?_eq_none]

theorem findById_some_mem {db : List Client} {i : ObjectId} {c : Client}
    (h : findById db i = some c) : c ∈ db ∧ c._id = i := by
  unfold findById at h
  refine ⟨List.mem_of_find?_eq_some h, ?_⟩
  simpa using List.find?_some h

theorem nodup_of_ids_nodup {db : List Client} (h : (db.map Client._id).Nodup) :
    db.Nodup :=
  List.Nodup.of_map _ h

theorem eq_of_id_eq {db : List Client} (h : (db.map Client._id).Nodup) {c d : Client}
    (hc : c ∈ db) (hd : d ∈ db) (e : c._id = d._id) : c = d :=
  List.inj_on_of_nodup_map h hc hd e

theorem eq_of_mobile_eq {db : List Client} (h : (db.map Client.mobile).Nodup)
    {c d : Client} (hc : c ∈ db) (hd : d ∈ db) (e : c.mobile = d.mobile) : c = d :=
  List.inj_on_of_nodup_map h hc hd e

theorem uploadAttachment_db (env : Env) (w : World) (file : Option File)
    (folder : String) : (uploadAttachment env w file folder).2.db = w.db := by
  unfold uploadAttachment
  split
  · rfl
  · split
    · rfl
    · dsimp only
      split <;> rfl

theorem uploadAttachment_nextId (env : Env) (w : World) (file : Option File)
    (folder : String) : (uploadAttachment env w file folder).2.nextId = w.nextId := by
  unfold uploadAttachment
  split
  · rfl
  · split
    · rfl
    · dsimp only
      split <;> rfl

theorem uploadAttachment_error (env : Env) (w : World) (f : File) (folder e : String)
    (h : env.cloudinaryUpload f.path folder = .error e) :
    uploadAttachment env w (some f) folder = (.error e, w) := by
  simp [uploadAttachment, h]

theorem eraseP_congr_mem {α : Type} {p q : α → Bool} :
    ∀ l : List α, (∀ d ∈ l, p d = q d) → l.eraseP p = l.eraseP q
  | [], _ => rfl
  | a :: l, h => by
    have ha : p a = q a := h a (List.mem_cons_self a l)
    have ih := eraseP_congr_mem l (fun d hd => h d (List.mem_cons_of_mem a hd))
    simp [List.eraseP_cons, ha, ih]

theorem replaceFirst_eq_map (i : ObjectId) (c : Client) :
    ∀ db : List Client, (db.map Client._id).Nodup →
      replaceFirst i c db = db.map (fun d => if d._id = i then c else d)
  | [], _ => rfl
  | d :: ds, h => by
    rw [List.map_cons, List.nodup_cons] at h
    by_cases hd : d._id = i
    · have hds : ∀ x ∈ ds, (if x._id = i then c else x) = x := by
        intro x hx
        have : x._id ≠ i := fun e => h.1 (hd ▸ e ▸ List.mem_map_of_mem Client._id hx)
        simp [this]
      simp only [replaceFirst, hd, if_true, List.map_cons]
      congr 1
      conv_lhs => rw [← List.map_id ds]
      exact List.map_congr_left (fun x hx => (hds x hx).symm)
    · simp only [replaceFirst, hd, if_false, List.map_cons]
      rw [replaceFirst_eq_map i c ds h.2]

theorem no_other_mobile {db : List Client} (h : (db.map Client.mobile).Nodup)
    {c : Client} (hc : c ∈ db) (i : ObjectId) (hci : c._id = i) :
    db.any (fun d => d._id != i && d.mobile == c.mobile) = false := by
  rw [Bool.eq_false_iff]
  intro hany
  rw [List.any_eq_true] at hany
  obtain ⟨d, hd, hp⟩ := hany
  simp only [Bool.and_eq_true, bne_iff_ne, ne_eq, beq_iff_eq] at hp
  have : d = c := eq_of_mobile_eq h hd hc hp.2
  exact hp.1 (this ▸ hci)

theorem findById_map (g : Client → Client) (hg : ∀ d, (g d)._id = d._id) (i : ObjectId) :
    ∀ db : List Client, findById (db.map g) i = (findById db i).map g
  | [] => rfl
  | d :: ds => by
    have ih := findById_map g hg i ds
    unfold findById at ih ⊢
    by_cases hd : d._id = i
    · simp [List.find?_cons, hg, hd]
    · have hb : (d._id == i) = false := by simp [hd]
      simp only [List.map_cons, List.find?_cons, hg, hb]
      exact ih

theorem findOne_eq_none_iff (db : List Client) (m : String) :
    findOne db (some m) = none ↔ ∀ c ∈ db, c.mobile ≠ m := by
  simp [findOne, List.find?_eq_none]

theorem save_fresh {db : List Client} {c : Client} (hm : c.mobile ≠ "")
    (hp : c.password ≠ "") (hid : ∀ d ∈ db, d._id ≠ c._id)
    (hmob : ∀ d ∈ db, d.mobile ≠ c.mobile) : save db c = .ok (db ++ [c]) := by
  have h1 : db.any (fun d => d._id == c._id) = false := by
    rw [Bool.eq_false_iff]
    intro h
    obtain ⟨d, hd, hp⟩ := List.any_eq_true.1 h
    exact hid d hd (by simpa using hp)
  have h2 : db.any (fun d => d.mobile == c.mobile) = false := by
    rw [Bool.eq_false_iff]
    intro h
    obtain ⟨d, hd, hp⟩ := List.any_eq_true.1 h
    exact hmob d hd (by simpa using hp)
  simp [save, hm, hp, h1, h2]

theorem register_fresh (env : Env) (w : World) (salt : Nat) (body : Body) (m p : String)
    (hlt : ∀ c ∈ w.db, c._id < w.nextId)
    (hbm : body.lookup "mobile" = some m) (hbp : body.lookup "password" = some p)
    (hm : m ≠ "") (hp : p ≠ "") (hnew : findOne w.db (some m) = none) :
    register env w salt body =
      (⟨201, .messageClient "Client registered successfully"
          (Client.minimal w.nextId m (env.bcryptHash p 10 salt))⟩,
       { w with nextId := w.nextId + 1,
                db := w.db ++ [Client.minimal w.nextId m (env.bcryptHash p 10 salt)] }) := by
  have hs : save w.db (Client.minimal w.nextId m (env.bcryptHash p 10 salt)) =
      .ok (w.db ++ [Client.minimal w.nextId m (env.bcryptHash p 10 salt)]) := by
    apply save_fresh
    · exact hm
    · exact env.bcryptHash_ne p 10 salt
    · intro d hd
      exact Nat.ne_of_lt (hlt d hd)
    · exact (findOne_eq_none_iff w.db m).1 hnew
  simp [register, registerWith, hbm, hbp, truthy, hm, hp, hnew, hs]

theorem save_duplicate_mobile (db : List Client) (c : Client)
    (h : ∃ d ∈ db, d.mobile = c.mobile) : ∃ e, save db c = .error e := by
  unfold save
  split
  · exact ⟨_, rfl⟩
  · split
    · exact ⟨_, rfl⟩
    · split
      · exact ⟨_, rfl⟩
      · next hn =>
        obtain ⟨d, hd, hdm⟩ := h
        exact absurd (List.any_eq_true.2 ⟨d, hd, by simpa using hdm⟩) hn

theorem ofCreate_mobile {env : Env} {id : ObjectId} {body : Body}
    {firstName mobile hashed : String} {photoUrl licenseUrl : Option String} {c : Client}
    (h : Client.ofCreate env id body firstName mobile hashed photoUrl licenseUrl = .ok c) :
    c.mobile = mobile := by
  unfold Client.ofCreate at h
  simp only [bind, Except.bind, pure, Except.pure] at h
  split at h
  · cases h
  · split at h
    · cases h
    · split at h
      · cases h
      · split at h
        · cases h
        · cases h
          rfl

theorem insertDesc_cons (c d : Client) (ds : List Client) :
    insertDesc c (d :: ds) = c :: d :: ds := by
  simp [insertDesc, Client.createdAt, keyLt]

theorem sortByCreatedAtDesc_eq : ∀ cs : List Client, sortByCreatedAtDesc cs = cs
  | [] => rfl
  | [c] => rfl
  | c :: d :: ds => by
    have ih := sortByCreatedAtDesc_eq (d :: ds)
    unfold sortByCreatedAtDesc at ih ⊢
    rw [List.foldr_cons, ih, insertDesc_cons]

/-- The list handler returns the collection in natural order, whatever it holds. -/
theorem list_natural_order (w : World) : list w = (⟨200, .clients w.db⟩, w) := by
  simp [list, sortByCreatedAtDesc_eq]

/-! ## The representation invariant is preserved -/

theorem WF_empty : World.empty.WF :=
  ⟨List.nodup_nil, List.nodup_nil, fun _ h => absurd h (List.not_mem_nil _)⟩

theorem WF_of_db_eq (w w1 : World) (hdb : w1.db = w.db) (hn : w.nextId ≤ w1.nextId)
    (hw : w.WF) : w1.WF :=
  ⟨hdb ▸ hw.ids_nodup, hdb ▸ hw.mobiles_nodup,
    fun c hc => Nat.lt_of_lt_of_le (hw.ids_lt c (hdb ▸ hc)) hn⟩

theorem save_ok {db db1 : List Client} {c : Client} (h : save db c = .ok db1) :
    db1 = db ++ [c] ∧ (∀ d ∈ db, d._id ≠ c._id) ∧ (∀ d ∈ db, d.mobile ≠ c.mobile) := by
  unfold save at h
  split at h
  · cases h
  · split at h
    · cases h
    · next h1 =>
      split at h
      · cases h
      · next h2 =>
        cases h
        refine ⟨rfl, ?_, ?_⟩
        · intro d hd e
          exact h1 (List.any_eq_true.2 ⟨d, hd, by simpa using e⟩)
        · intro d hd e
          exact h2 (List.any_eq_true.2 ⟨d, hd, by simpa using e⟩)

theorem WF_save {w : World} {c : Client} {db1 : List Client} (hw : w.WF)
    (hid : c._id = w.nextId) (h : save w.db c = .ok db1) :
    World.WF { w with db := db1, nextId := w.nextId + 1 } := by
  obtain ⟨rfl, h1, h2⟩ := save_ok h
  refine ⟨?_, ?_, ?_⟩
  · show ((w.db ++ [c]).map Client._id).Nodup
    rw [List.map_append, List.nodup_append]
    refine ⟨hw.ids_nodup, List.nodup_singleton _, ?_⟩
    intro x hx hx2
    obtain ⟨d, hd, rfl⟩ := List.mem_map.1 hx
    simp only [List.map_cons, List.map_nil, List.mem_singleton] at hx2
    exact h1 d hd hx2
  · show ((w.db ++ [c]).map Client.mobile).Nodup
    rw [List.map_append, List.nodup_append]
    refine ⟨hw.mobiles_nodup, List.nodup_singleton _, ?_⟩
    intro x hx hx2
    obtain ⟨d, hd, rfl⟩ := List.mem_map.1 hx
    simp only [List.map_cons, List.map_nil, List.mem_singleton] at hx2
    exact h2 d hd hx2
  · intro d hd
    show d._id < w.nextId + 1
    rcases List.mem_append.1 hd with hd | hd
    · exact Nat.lt_succ_of_lt (hw.ids_lt d hd)
    · rw [List.mem_singleton.1 hd, hid]
      exact Nat.lt_succ_self _

theorem registerWith_WF (env : Env) (others : World → World) (w : World) (salt : Nat)
    (body : Body) (hw : w.WF) (ho : (others w).WF) :
    (registerWith env others w salt body).2.WF := by
  unfold registerWith
  dsimp only
  split
  · exact hw
  · split
    · exact hw
    · split
      · next db h => exact WF_save ho rfl h
      · exact WF_of_db_eq (others w) _ rfl (Nat.le_succ _) ho

theorem ofCreate_id {env : Env} {id : ObjectId} {body : Body}
    {firstName mobile hashed : String} {photoUrl licenseUrl : Option String} {c : Client}
    (h : Client.ofCreate env id body firstName mobile hashed photoUrl licenseUrl = .ok c) :
    c._id = id := by
  unfold Client.ofCreate at h
  simp only [bind, Except.bind, pure, Except.pure] at h
  split at h
  · cases h
  · split at h
    · cases h
    · split at h
      · cases h
      · split at h
        · cases h
        · cases h
          rfl

theorem uploadAttachment_WF (env : Env) (w : World) (file : Option File)
    (folder : String) (hw : w.WF) : (uploadAttachment env w file folder).2.WF :=
  WF_of_db_eq w _ (uploadAttachment_db env w file folder)
    (Nat.le_of_eq (uploadAttachment_nextId env w file folder).symm) hw

theorem createWith_WF (env : Env) (others : World → World) (w : World) (salt : Nat)
    (body : Body) (reqFiles : Option Files) (hw : w.WF) (ho : (others w).WF) :
    (createWith env others w salt body reqFiles).2.WF := by
  unfold createWith
  dsimp only
  split
  · exact hw
  · split
    · exact hw
    · cases reqFiles with
      | none => exact ho
      | some files =>
      dsimp only
      have hA := uploadAttachment_WF env (others w) files.photo "driving_school/photos" ho
      rcases hU : uploadAttachment env (others w) files.photo "driving_school/photos"
        with ⟨r, w2⟩
      rw [hU] at hA
      cases r with
      | error e => exact hA
      | ok photoUrl =>
        dsimp only
        have hB := uploadAttachment_WF env w2 files.licenseFile "driving_school/licenses" hA
        rcases hV : uploadAttachment env w2 files.licenseFile "driving_school/licenses"
          with ⟨r2, w3⟩
        rw [hV] at hB
        cases r2 with
        | error e => exact hB
        | ok licenseUrl =>
          dsimp only
          split
          · exact WF_of_db_eq w3 _ rfl (Nat.le_succ _) hB
          · next newClient hC =>
            split
            · next db h => exact WF_save hB (ofCreate_id hC) h
            · exact WF_of_db_eq w3 _ rfl (Nat.le_succ _) hB

theorem delete_WF (env : Env) (w : World) (param : String) (hw : w.WF) :
    (delete env w param).2.WF := by
  unfold delete
  split
  · exact hw
  · next i _ =>
    split
    · exact hw
    · have hsub : (w.db.eraseP (fun c => c._id == i)).Sublist w.db :=
        List.eraseP_sublist _
      exact ⟨(hsub.map Client._id).nodup hw.ids_nodup,
        (hsub.map Client.mobile).nodup hw.mobiles_nodup,
        fun c hc => hw.ids_lt c (hsub.subset hc)⟩

theorem clientSchema_keepsId (env : Env) (u : UpdateData) :
    ∀ r ∈ clientSchema.map (castPath env u), ∀ g, r = .ok g → KeepsId g := by
  intro r hr g hg
  obtain ⟨⟨key, kind⟩, hk, hkr⟩ := List.mem_map.1 hr
  rw [← hkr] at hg
  have hkind : match kind with
      | .string set => ∀ s, KeepsId (set s)
      | .date set => ∀ d, KeepsId (set d)
      | .number set => ∀ n, KeepsId (set n) := by
    simp only [clientSchema, List.mem_cons, List.mem_singleton, Prod.mk.injEq,
      List.not_mem_nil, or_false] at hk
    rcases hk with h | h | h | h | h | h | h | h | h | h | h | h | h | h | h | h | h | h |
      h | h | h <;> (obtain ⟨-, rfl⟩ := h; intro _ _; rfl)
  have hid : KeepsId (id : Client → Client) := fun _ => rfl
  cases hl : u.lookup key with
  | none =>
    simp only [castPath, hl, Except.ok.injEq] at hg
    exact hg ▸ hid
  | some v =>
    cases v with
    | str s =>
      cases kind with
      | string set =>
        simp only [castPath, hl, Except.ok.injEq] at hg
        exact hg ▸ hkind s
      | date set =>
        simp only [castPath, hl] at hg
        cases hcd : env.castDate s with
        | error e => rw [hcd] at hg; cases hg
        | ok d => rw [hcd] at hg; cases hg; exact hkind d
      | number set =>
        simp only [castPath, hl] at hg
        cases hcn : env.castNumber s with
        | error e => rw [hcn] at hg; cases hg
        | ok n => rw [hcn] at hg; cases hg; exact hkind n
    | date d =>
      cases kind with
      | string set => simp [castPath, hl] at hg
      | number set => simp [castPath, hl] at hg
      | date set =>
        cases d with
        | none => simp [castPath, hl] at hg
        | some ms =>
          simp only [castPath, hl, Except.ok.injEq] at hg
          exact hg ▸ hkind (some ms)

theorem sequenceCasts_keepsId :
    ∀ rs : List (Except String (Client → Client)),
      (∀ r ∈ rs, ∀ g, r = .ok g → KeepsId g) → ∀ f, sequenceCasts rs = .ok f → KeepsId f
  | [], _, f, h => by
    cases h
    intro c
    rfl
  | r :: rs, hall, f, h => by
    unfold sequenceCasts at h
    split at h
    · cases h
    · next g =>
      split at h
      · cases h
      · next k hk =>
        cases h
        have hg : KeepsId g := hall _ (List.mem_cons_self _ _) g rfl
        have hkk : KeepsId k :=
          sequenceCasts_keepsId rs (fun r hr => hall r (List.mem_cons_of_mem _ hr)) k hk
        intro c
        show (k (g c))._id = c._id
        rw [hkk, hg]

theorem castUpdate_keepsId {env : Env} {id : ObjectId} {u : UpdateData}
    {f : Client → Client} (h : castUpdate env id u = .ok f) : KeepsId f := by
  unfold castUpdate at h
  split at h
  · cases h
  · exact sequenceCasts_keepsId _ (clientSchema_keepsId env u) f h

theorem findByIdAndUpdate_some {env : Env} {db : List Client} {param : String}
    {i : ObjectId} (u : UpdateData) (hcast : env.castObjectId param = some i) :
    findByIdAndUpdate env db param u =
      match castUpdate env i u with
      | .error e => .error e
      | .ok f =>
        match findById db i with
        | Option.none => .ok none
        | some c =>
          if db.any (fun d => d._id != i && d.mobile == (f c).mobile) then
            .error "E11000 duplicate key error: mobile"
          else .ok (some (f c, replaceFirst i (f c) db)) := by
  simp only [findByIdAndUpdate, hcast]

theorem findByIdAndUpdate_WF {env : Env} {w : World} {param : String} {u : UpdateData}
    {c : Client} {db : List Client} (hw : w.WF)
    (h : findByIdAndUpdate env w.db param u = .ok (some (c, db))) :
    World.WF { w with db := db } := by
  cases hcast : env.castObjectId param with
  | none => simp [findByIdAndUpdate, hcast] at h
  | some id =>
  rw [findByIdAndUpdate_some u hcast] at h
  split at h
  · cases h
  · next f hf =>
    split at h
    · cases h
    · next old hold =>
      split at h
      · cases h
      · next hany =>
        cases h
        obtain ⟨hmem, hid⟩ := findById_some_mem hold
        have hkeep : (f old)._id = id := (castUpdate_keepsId hf old).trans hid
        have hmap := replaceFirst_eq_map id (f old) w.db hw.ids_nodup
        have hg : ∀ d, (if d._id = id then f old else d)._id = d._id := by
          intro d
          by_cases hd : d._id = id
          · simp [hd, hkeep]
          · simp [hd]
        have hnd : w.db.Nodup := nodup_of_ids_nodup hw.ids_nodup
        refine ⟨?_, ?_, ?_⟩
        · show ((replaceFirst id (f old) w.db).map Client._id).Nodup
          rw [hmap, List.map_map]
          have : (Client._id ∘ fun d => if d._id = id then f old else d) = Client._id := by
            funext d
            exact hg d
          rw [this]
          exact hw.ids_nodup
        · show ((replaceFirst id (f old) w.db).map Client.mobile).Nodup
          rw [hmap, List.map_map]
          apply List.Nodup.map_on _ hnd
          intro x hx y hy hxy
          simp only [Function.comp] at hxy
          by_cases hxi : x._id = id <;> by_cases hyi : y._id = id
          · exact eq_of_id_eq hw.ids_nodup hx hy (hxi.trans hyi.symm)
          · simp only [hxi, hyi, if_true, if_false] at hxy
            exact absurd (List.any_eq_true.2 ⟨y, hy, by simp [hyi, hxy]⟩) hany
          · simp only [hxi, hyi, if_true, if_false] at hxy
            exact absurd (List.any_eq_true.2 ⟨x, hx, by simp [hxi, hxy]⟩) hany
          · simp only [hxi, hyi, if_false] at hxy
            exact eq_of_mobile_eq hw.mobiles_nodup hx hy hxy
        · intro d hd
          have hd2 : d ∈ (replaceFirst id (f old) w.db) := hd
          rw [hmap] at hd2
          obtain ⟨x, hx, rfl⟩ := List.mem_map.1 hd2
          show (if x._id = id then f old else x)._id < w.nextId
          rw [hg x]
          exact hw.ids_lt x hx

theorem update_WF (env : Env) (w : World) (param : String) (body : Body)
    (reqFiles : Option Files) (hw : w.WF) : (update env w param body reqFiles).2.WF := by
  unfold update
  dsimp only
  cases reqFiles with
  | none => exact hw
  | some files =>
  dsimp only
  have hA := uploadAttachment_WF env w files.photo "driving_school/photos" hw
  rcases hU : uploadAttachment env w files.photo "driving_school/photos" with ⟨r, w1⟩
  rw [hU] at hA
  cases r with
  | error e => exact hA
  | ok photoUrl =>
    dsimp only
    have hB := uploadAttachment_WF env w1 files.licenseFile "driving_school/licenses" hA
    rcases hV : uploadAttachment env w1 files.licenseFile "driving_school/licenses"
      with ⟨r2, w2⟩
    rw [hV] at hB
    cases r2 with
    | error e => exact hB
    | ok licenseUrl =>
      dsimp only
      split
      · exact hB
      · exact hB
      · next updatedClient db h => exact findByIdAndUpdate_WF hB h

theorem uploadFields_WF (w : World) (photo licenseFile : Option Part) (hw : w.WF) :
    (uploadFields w photo licenseFile).2.WF :=
  WF_of_db_eq w _ rfl (Nat.le_refl _) hw

theorem multer_WF (w : World) (parts : Option Parts) (hw : w.WF) :
    (multer w parts).2.WF := by
  cases parts with
  | none => exact hw
  | some p => exact uploadFields_WF w p.photo p.licenseFile hw

/-- Every request leaves a well-formed world well-formed. -/
theorem step_WF (env : Env) (w : World) (r : Request) (hw : w.WF) : (step env w r).2.WF := by
  cases r with
  | register salt body => exact registerWith_WF env id w salt body hw hw
  | login body =>
    have : (login env w body).2 = w := by
      unfold login
      dsimp only
      split
      · rfl
      · split
        · rfl
        · rfl
        · split <;> rfl
    show (login env w body).2.WF
    rw [this]
    exact hw
  | create salt body parts =>
    exact createWith_WF env id _ salt body _ (multer_WF w parts hw) (multer_WF w parts hw)
  | list => exact hw
  | get param =>
    have : (get env w param).2 = w := by
      unfold get
      split
      · rfl
      · split <;> rfl
    show (get env w param).2.WF
    rw [this]
    exact hw
  | update param body parts => exact update_WF env _ param body _ (multer_WF w parts hw)
  | delete param => exact delete_WF env w param hw

/-- Every world reached from the empty world by serving requests is well-formed. -/
theorem run_WF (env : Env) (reqs : List Request) : (run env World.empty reqs).WF := by
  suffices h : ∀ (rs : List Request) (w : World), w.WF → (run env w rs).WF from
    h reqs World.empty WF_empty
  intro rs
  induction rs with
  | nil => intro w hw; exact hw
  | cons r rs ih => intro w hw; exact ih _ (step_WF env w r hw)

/-! ## Claims -/

/-- C1: a login whose mobile matches no stored client and a login whose mobile matches a
stored client but whose password fails verification against the stored hash get the same
response, status 400 with message "Invalid mobile or password", and neither is issued a
token. -/
theorem login_failures_indistinguishable (env : Env) (w : World) (body1 body2 : Body)
    (client : Client)
    (h1 : findOne w.db (body1.lookup "mobile") = none)
    (h2 : findOne w.db (body2.lookup "mobile") = some client)
    (h3 : env.bcryptCompare (body2.lookup "password") client.password = .ok false) :
    (login env w body1).1 = (login env w body2).1 ∧
    (login env w body1).1 = ⟨400, .message "Invalid mobile or password"⟩ ∧
    (login env w body1).1.payload.token? = none ∧
    (login env w body2).1.payload.token? = none := by
  have e1 : (login env w body1).1 = ⟨400, .message "Invalid mobile or password"⟩ := by
    simp [login, h1]
  have e2 : (login env w body2).1 = ⟨400, .message "Invalid mobile or password"⟩ := by
    simp [login, h2, jsOr_empty, h3]
  refine ⟨e1.trans e2.symm, e1, ?_, ?_⟩
  · rw [e1]; rfl
  · rw [e2]; rfl

/-- Witness of C1 on a store holding one registered client. -/
theorem login_failures_indistinguishable_witness :
    (login sampleEnv (register sampleEnv World.empty 7
        [("mobile", "9990001111"), ("password", "pass123")]).2
      [("mobile", "9990002222"), ("password", "pass123")]).1 =
    (login sampleEnv (register sampleEnv World.empty 7
        [("mobile", "9990001111"), ("password", "pass123")]).2
      [("mobile", "9990001111"), ("password", "wrong")]).1 :=
  (login_failures_indistinguishable sampleEnv
    (register sampleEnv World.empty 7
      [("mobile", "9990001111"), ("password", "pass123")]).2
    [("mobile", "9990002222"), ("password", "pass123")]
    [("mobile", "9990001111"), ("password", "wrong")]
    (Client.minimal 0 "9990001111" (sampleHash "pass123" 10 7))
    (by decide) (by decide) rfl).1

/-- C4: when a create request passes field validation and the duplicate-mobile check and
the upload of one of its files fails, the create responds 500 and the client collection is
the one before the request, also when the photo was uploaded and only the license upload
failed. -/
theorem create_upload_failure_persists_nothing (env : Env) (w : World) (salt : Nat)
    (body : Body) (files : Files)
    (hv : truthy (body.lookup "firstName") = true ∧ truthy (body.lookup "mobile") = true ∧
      truthy (body.lookup "password") = true)
    (hd : findOne w.db (body.lookup "mobile") = none)
    (hf : (∃ f e, files.photo = some f ∧
            env.cloudinaryUpload f.path "driving_school/photos" = .error e) ∨
          (∃ f e, files.licenseFile = some f ∧
            env.cloudinaryUpload f.path "driving_school/licenses" = .error e)) :
    (create env w salt body (some files)).1.status = 500 ∧
    (create env w salt body (some files)).1.payload.message? = some "Server error" ∧
    (create env w salt body (some files)).2.db = w.db := by
  obtain ⟨hv1, hv2, hv3⟩ := hv
  unfold create createWith
  simp only [hv1, hv2, hv3, hd, Bool.not_true, Bool.or_self, Bool.false_eq_true, if_false,
    id_eq]
  rcases hf with ⟨f, e, hf1, hf2⟩ | ⟨f, e, hf1, hf2⟩
  · rw [hf1, uploadAttachment_error env w f _ e hf2]
    exact ⟨rfl, rfl, rfl⟩
  · have hdb := uploadAttachment_db env w files.photo "driving_school/photos"
    rcases hA : uploadAttachment env w files.photo "driving_school/photos" with ⟨r, w2⟩
    rw [hA] at hdb
    cases r with
    | error e2 => exact ⟨rfl, rfl, hdb⟩
    | ok photoUrl =>
      dsimp only
      rw [hf1, uploadAttachment_error env w2 f _ e hf2]
      exact ⟨rfl, rfl, hdb⟩

/-- Witness of C4: the photo upload is refused by an unreachable object store. -/
theorem create_upload_failure_persists_nothing_witness :
    (create offlineEnv World.empty 3
      [("firstName", "Asha"), ("mobile", "9990001111"), ("password", "pass123")]
      (some ⟨some ⟨"uploads/1-a.png"⟩, none⟩)).1.status = 500 ∧
    (create offlineEnv World.empty 3
      [("firstName", "Asha"), ("mobile", "9990001111"), ("password", "pass123")]
      (some ⟨some ⟨"uploads/1-a.png"⟩, none⟩)).1.payload.message? = some "Server error" ∧
    (create offlineEnv World.empty 3
      [("firstName", "Asha"), ("mobile", "9990001111"), ("password", "pass123")]
      (some ⟨some ⟨"uploads/1-a.png"⟩, none⟩)).2.db = World.empty.db :=
  create_upload_failure_persists_nothing offlineEnv World.empty 3
    [("firstName", "Asha"), ("mobile", "9990001111"), ("password", "pass123")]
    ⟨some ⟨"uploads/1-a.png"⟩, none⟩
    (by decide) (by decide)
    (Or.inl ⟨⟨"uploads/1-a.png"⟩, "connect ETIMEDOUT", rfl, rfl⟩)

/-- C9, as stated, fails for a route parameter that is not a well-formed ObjectId: "abc"
names no ObjectId, so no stored client has it as id, yet delete responds 500, not 404. -/
theorem delete_malformed_id_counterexample :
    sampleEnv.castObjectId "abc" = none ∧
    sampleWorld.db.map Client._id = [0] ∧
    delete sampleEnv sampleWorld "abc" =
      (⟨500, .message "Cast to ObjectId failed"⟩, sampleWorld) ∧
    (delete sampleEnv sampleWorld "abc").1.status ≠ 404 := by
  decide

/-- C9, amended: on a well-formed store, for a route parameter that casts to the ObjectId
`i`: deleting when no client has id `i` responds 404 and leaves the world as it was;
deleting when a client has id `i` responds 200, removes that record and no other, and a
following get of the same parameter responds 404. -/
theorem delete_spec (env : Env) (w : World) (param : String) (i : ObjectId) (hw : w.WF)
    (hcast : env.castObjectId param = some i) :
    (findById w.db i = none →
      delete env w param = (⟨404, .message "Client not found"⟩, w)) ∧
    (∀ c, findById w.db i = some c →
      (delete env w param).1 = ⟨200, .message "Client deleted successfully"⟩ ∧
      (∀ d, d ∈ (delete env w param).2.db ↔ d ∈ w.db ∧ d ≠ c) ∧
      (delete env w param).2.db = w.db.erase c ∧
      (get env (delete env w param).2 param).1 = ⟨404, .message "Client not found"⟩) := by
  constructor
  · intro h
    simp [delete, hcast, h]
  · intro c h
    obtain ⟨hc, hci⟩ := findById_some_mem h
    have hnd : w.db.Nodup := nodup_of_ids_nodup hw.ids_nodup
    have hdb : (delete env w param).2.db = w.db.erase c := by
      simp only [delete, hcast, h]
      rw [List.erase_eq_eraseP]
      apply eraseP_congr_mem
      intro d hd
      by_cases hdi : d._id = i
      · have : d = c := eq_of_id_eq hw.ids_nodup hd hc (hdi.trans hci.symm)
        simp [this, hci]
      · have : c ≠ d := fun e => hdi (e ▸ hci)
        simp [hdi, this]
    have hmem : ∀ d, d ∈ (delete env w param).2.db ↔ d ∈ w.db ∧ d ≠ c := by
      intro d
      rw [hdb, hnd.mem_erase_iff]
      exact and_comm
    refine ⟨by simp [delete, hcast, h], hmem, hdb, ?_⟩
    have hnone : findById (delete env w param).2.db i = none := by
      rw [findById_eq_none_iff]
      intro d hd hdi
      obtain ⟨hd1, hd2⟩ := (hmem d).1 hd
      exact hd2 (eq_of_id_eq hw.ids_nodup hd1 hc (hdi.trans hci.symm))
    simp [get, hcast, hnone]

/-- Witness of C9 (amended) on the sample store: id 0 is stored, id 5 is not. -/
theorem delete_spec_witness :
    delete sampleEnv sampleWorld "000000000000000000000005" =
      (⟨404, .message "Client not found"⟩, sampleWorld) ∧
    (delete sampleEnv sampleWorld "000000000000000000000000").1 =
      ⟨200, .message "Client deleted successfully"⟩ ∧
    (get sampleEnv (delete sampleEnv sampleWorld "000000000000000000000000").2
      "000000000000000000000000").1 = ⟨404, .message "Client not found"⟩ :=
  ⟨(delete_spec sampleEnv sampleWorld "000000000000000000000005" 5 sampleWorld_WF
      (by decide)).1 (by decide),
   ((delete_spec sampleEnv sampleWorld "000000000000000000000000" 0 sampleWorld_WF
      (by decide)).2
      (Client.minimal 0 "9990001111" (sampleHash "pass123" 10 7)) (by decide)).1,
   ((delete_spec sampleEnv sampleWorld "000000000000000000000000" 0 sampleWorld_WF
      (by decide)).2
      (Client.minimal 0 "9990001111" (sampleHash "pass123" 10 7)) (by decide)).2.2.2⟩

/-- C6, as stated, fails for an update that is not sent as a multipart form: with the
body `dob` = "2020-01-01" sent as JSON and no files, `req.files` is `undefined`, the
handler responds 500 and the stored client keeps its former `dob`. -/
theorem update_dob_json_counterexample :
    findById sampleWorld.db 0 =
      some (Client.minimal 0 "9990001111" (sampleHash "pass123" 10 7)) ∧
    sampleEnv.castObjectId "000000000000000000000000" = some 0 ∧
    (step sampleEnv sampleWorld
      (.update "000000000000000000000000" [("dob", "2020-01-01")] none)).1.status = 500 ∧
    (findById (step sampleEnv sampleWorld
      (.update "000000000000000000000000" [("dob", "2020-01-01")] none)).2.db 0).map
        Client.dob = some none := by
  decide

/-- C6, amended: on a well-formed store holding a client with id `i`, an update sent as a
multipart form, whose route parameter casts to `i`, whose body is exactly the member
`dob` with value "2020-01-01" and which carries no files, responds 200, stores `dob` of
that client as the date 2020-01-01 (a time value, given that `new Date` reads the string
as that date), and leaves every other field of that client and every other client as they
were. -/
theorem update_dob_only (env : Env) (w : World) (param : String) (i : ObjectId)
    (c : Client) (hw : w.WF) (hcast : env.castObjectId param = some i)
    (hc : findById w.db i = some c)
    (hdate : env.newDate "2020-01-01" = some 1577836800000) :
    (update env w param [("dob", "2020-01-01")] (some Files.none)).1 =
      ⟨200, .messageUpdated "Client updated successfully"
        { c with dob := some 1577836800000 }⟩ ∧
    (update env w param [("dob", "2020-01-01")] (some Files.none)).2.db =
      w.db.map (fun d => if d._id = i then { d with dob := some 1577836800000 } else d) ∧
    findById (update env w param [("dob", "2020-01-01")] (some Files.none)).2.db i =
      some { c with dob := some 1577836800000 } := by
  obtain ⟨hmem, hci⟩ := findById_some_mem hc
  have hconv : convertDates env (spread [("dob", "2020-01-01")]) =
      [("dob", .date (some 1577836800000))] := by
    simp [convertDates, convertDate, spread, setKey, List.lookup, hdate]
  have hcu : castUpdate env i [("dob", .date (some 1577836800000))] =
      .ok (fun c => { c with dob := some 1577836800000 }) := rfl
  have huniq := no_other_mobile hw.mobiles_nodup hmem i hci
  have hupd : update env w param [("dob", "2020-01-01")] (some Files.none) =
      (⟨200, .messageUpdated "Client updated successfully"
        { c with dob := some 1577836800000 }⟩,
       { w with db := replaceFirst i { c with dob := some 1577836800000 } w.db }) := by
    simp only [update, Files.none, uploadAttachment, mergeUrl, hconv,
      findByIdAndUpdate_some _ hcast, hcu, hc, huniq, Bool.false_eq_true, if_false]
  have hmap : replaceFirst i { c with dob := some 1577836800000 } w.db =
      w.db.map (fun d => if d._id = i then { d with dob := some 1577836800000 } else d) := by
    rw [replaceFirst_eq_map i _ w.db hw.ids_nodup]
    apply List.map_congr_left
    intro d hd
    by_cases hdi : d._id = i
    · have : d = c := eq_of_id_eq hw.ids_nodup hd hmem (hdi.trans hci.symm)
      simp [hdi, this]
    · simp [hdi]
  rw [hupd]
  refine ⟨rfl, hmap, ?_⟩
  show findById (replaceFirst i { c with dob := some 1577836800000 } w.db) i = _
  rw [hmap, findById_map _ (fun d => by by_cases hdi : d._id = i <;> simp [hdi]) i w.db, hc]
  simp [hci]

/-- Witness of C6 (amended) on the sample store. -/
theorem update_dob_only_witness :
    findById (update sampleEnv sampleWorld "000000000000000000000000"
      [("dob", "2020-01-01")] (some Files.none)).2.db 0 =
      some { Client.minimal 0 "9990001111" (sampleHash "pass123" 10 7) with
        dob := some 1577836800000 } :=
  (update_dob_only sampleEnv sampleWorld "000000000000000000000000" 0
    (Client.minimal 0 "9990001111" (sampleHash "pass123" 10 7)) sampleWorld_WF
    (by decide) (by decide) (by decide)).2.2

/-- C3, as stated, fails when the mobile is the empty string: the store holds no client
with that mobile and the password is not empty, yet the first register responds 400. -/
theorem register_twice_empty_mobile_counterexample :
    findOne World.empty.db (some "") = none ∧
    List.lookup "mobile" [("mobile", ""), ("password", "pass123")] = some "" ∧
    (register sampleEnv World.empty 7 [("mobile", ""), ("password", "pass123")]).1 =
      ⟨400, .message "Mobile and password are required"⟩ ∧
    (register sampleEnv World.empty 7 [("mobile", ""), ("password", "pass123")]).1.status
      ≠ 201 := by
  decide

/-- C3, amended: on a well-formed store holding no client with mobile `m`, where `m` is
not the empty string, two register requests run one after the other that both carry
mobile `m` and a password that is not empty get 201 and then 400 with message
"Client already exists", and the store then holds exactly one client with mobile `m`. -/
theorem register_twice (env : Env) (w : World) (salt1 salt2 : Nat) (body1 body2 : Body)
    (m p1 p2 : String) (hw : w.WF) (hnew : findOne w.db (some m) = none) (hm : m ≠ "")
    (hm1 : body1.lookup "mobile" = some m) (hp1 : body1.lookup "password" = some p1)
    (hm2 : body2.lookup "mobile" = some m) (hp2 : body2.lookup "password" = some p2)
    (hne1 : p1 ≠ "") (hne2 : p2 ≠ "") :
    (register env w salt1 body1).1.status = 201 ∧
    (register env (register env w salt1 body1).2 salt2 body2).1 =
      ⟨400, .message "Client already exists"⟩ ∧
    ((register env (register env w salt1 body1).2 salt2 body2).2.db.filter
      (fun c => c.mobile == m)).length = 1 := by
  have h1 := register_fresh env w salt1 body1 m p1 hw.ids_lt hm1 hp1 hm hne1 hnew
  have hnone : ∀ c ∈ w.db, c.mobile ≠ m := (findOne_eq_none_iff w.db m).1 hnew
  have hfilter : w.db.filter (fun c => c.mobile == m) = [] := by
    rw [List.filter_eq_nil_iff]
    intro c hc
    simpa using hnone c hc
  have hfind : findOne (w.db ++ [Client.minimal w.nextId m (env.bcryptHash p1 10 salt1)])
      (some m) = some (Client.minimal w.nextId m (env.bcryptHash p1 10 salt1)) := by
    have hn : List.find? (fun c => c.mobile == m) w.db = none := hnew
    simp [findOne, List.find?_append, hn, Client.minimal]
  have h2 : register env (register env w salt1 body1).2 salt2 body2 =
      (⟨400, .message "Client already exists"⟩, (register env w salt1 body1).2) := by
    rw [h1]
    simp [register, registerWith, hm2, hp2, truthy, hm, hne2, hfind]
  rw [h2]
  refine ⟨by rw [h1], rfl, ?_⟩
  rw [h1]
  simp [List.filter_append, hfilter, Client.minimal]

/-- Witness of C3 (amended) from the empty world. -/
theorem register_twice_witness :
    (register sampleEnv World.empty 7
      [("mobile", "9990001111"), ("password", "pass123")]).1.status = 201 ∧
    (register sampleEnv (register sampleEnv World.empty 7
      [("mobile", "9990001111"), ("password", "pass123")]).2 8
      [("mobile", "9990001111"), ("password", "other")]).1 =
      ⟨400, .message "Client already exists"⟩ ∧
    ((register sampleEnv (register sampleEnv World.empty 7
      [("mobile", "9990001111"), ("password", "pass123")]).2 8
      [("mobile", "9990001111"), ("password", "other")]).2.db.filter
      (fun c => c.mobile == "9990001111")).length = 1 :=
  register_twice sampleEnv World.empty 7 8
    [("mobile", "9990001111"), ("password", "pass123")]
    [("mobile", "9990001111"), ("password", "other")] "9990001111" "pass123" "other"
    ⟨by decide, by decide, by decide⟩ (by decide) (by decide) (by decide) (by decide)
    (by decide) (by decide) (by decide) (by decide)

/-- C10 fails on the code: when a register or create request passes field validation and
the duplicate-mobile lookup, and a client with the same mobile is in the store by the time
of the insert, so that the unique index rejects it, the response is the generic server
error, status 500 with message "Server error", not the 400 the same handlers give a
mobile that the lookup finds. -/
theorem insert_race_is_server_error (env : Env) (others : World → World) (w : World)
    (salt : Nat) (body : Body) (m p : String)
    (hbm : body.lookup "mobile" = some m) (hbp : body.lookup "password" = some p)
    (hm : m ≠ "") (hp : p ≠ "") (hnew : findOne w.db (some m) = none)
    (hdup : ∃ d ∈ (others w).db, d.mobile = m) :
    ((registerWith env others w salt body).1.status = 500 ∧
      (registerWith env others w salt body).1.payload.message? = some "Server error" ∧
      (registerWith env others w salt body).2.db = (others w).db) ∧
    (∀ files : Files, truthy (body.lookup "firstName") = true →
      (createWith env others w salt body (some files)).1.status = 500 ∧
      (createWith env others w salt body (some files)).1.payload.message? =
        some "Server error" ∧
      (createWith env others w salt body (some files)).2.db = (others w).db) := by
  constructor
  · obtain ⟨e, he⟩ := save_duplicate_mobile (others w).db
      (Client.minimal (others w).nextId m (env.bcryptHash p 10 salt)) hdup
    simp [registerWith, hbm, hbp, truthy, hm, hp, hnew, he, Payload.message?]
  · intro files hf
    have hv2 : truthy (body.lookup "mobile") = true := by simp [hbm, truthy, hm]
    have hv3 : truthy (body.lookup "password") = true := by simp [hbp, truthy, hp]
    have hd : findOne w.db (body.lookup "mobile") = none := by rw [hbm]; exact hnew
    unfold createWith
    simp only [hf, hv2, hv3, hd, Bool.not_true, Bool.or_self, Bool.false_eq_true, if_false]
    simp only [hbm, hbp, Option.getD_some]
    have hA := uploadAttachment_db env (others w) files.photo "driving_school/photos"
    rcases hU : uploadAttachment env (others w) files.photo "driving_school/photos"
      with ⟨r, w2⟩
    rw [hU] at hA
    cases r with
    | error e => exact ⟨rfl, rfl, hA⟩
    | ok photoUrl =>
      dsimp only
      have hB := uploadAttachment_db env w2 files.licenseFile "driving_school/licenses"
      rcases hV : uploadAttachment env w2 files.licenseFile "driving_school/licenses"
        with ⟨r2, w3⟩
      rw [hV] at hB
      have hdb : w3.db = (others w).db := hB.trans hA
      cases r2 with
      | error e => exact ⟨rfl, rfl, hdb⟩
      | ok licenseUrl =>
        dsimp only
        cases hC : Client.ofCreate env w3.nextId body ((body.lookup "firstName").getD "") m
            (env.bcryptHash p 10 salt) photoUrl licenseUrl with
        | error e => exact ⟨rfl, rfl, hdb⟩
        | ok newClient =>
          dsimp only
          have hmob := ofCreate_mobile hC
          obtain ⟨e, he⟩ := save_duplicate_mobile w3.db newClient
            (by rw [hdb, hmob]; exact hdup)
          rw [he]
          exact ⟨rfl, rfl, hdb⟩

/-- Witness of C10: the interleaved request is a register of the same mobile. -/
theorem insert_race_is_server_error_witness :
    (registerWith sampleEnv
      (fun w => (register sampleEnv w 8
        [("mobile", "9990001111"), ("password", "other")]).2)
      World.empty 7
      [("firstName", "Asha"), ("mobile", "9990001111"), ("password", "pass123")]).1.status
      = 500 ∧
    (createWith sampleEnv
      (fun w => (register sampleEnv w 8
        [("mobile", "9990001111"), ("password", "other")]).2)
      World.empty 7
      [("firstName", "Asha"), ("mobile", "9990001111"), ("password", "pass123")]
      (some Files.none)).1.status = 500 :=
  ⟨(insert_race_is_server_error sampleEnv
      (fun w => (register sampleEnv w 8
        [("mobile", "9990001111"), ("password", "other")]).2)
      World.empty 7
      [("firstName", "Asha"), ("mobile", "9990001111"), ("password", "pass123")]
      "9990001111" "pass123" (by decide) (by decide) (by decide) (by decide) (by decide)
      ⟨Client.minimal 0 "9990001111" (sampleHash "other" 10 8), by decide, rfl⟩).1.1,
   ((insert_race_is_server_error sampleEnv
      (fun w => (register sampleEnv w 8
        [("mobile", "9990001111"), ("password", "other")]).2)
      World.empty 7
      [("firstName", "Asha"), ("mobile", "9990001111"), ("password", "pass123")]
      "9990001111" "pass123" (by decide) (by decide) (by decide) (by decide) (by decide)
      ⟨Client.minimal 0 "9990001111" (sampleHash "other" 10 8), by decide, rfl⟩).2
      Files.none (by decide)).1⟩

/-- C2 fails on the code: after a client registers, an update of that client whose body
carries the member `password` stores the supplied string itself, unhashed, whatever the
hash function is. -/
theorem update_stores_plaintext_password (env : Env) (salt : Nat) (param : String)
    (hid : env.castObjectId param = some 0) :
    (update env
      (register env World.empty salt
        [("mobile", "9990001111"), ("password", "pass123")]).2
      param [("password", "hunter2")] (some Files.none)).2.db.map Client.password =
      ["hunter2"] := by
  rw [register_fresh env World.empty salt
    [("mobile", "9990001111"), ("password", "pass123")] "9990001111" "pass123"
    (by simp [World.empty]) rfl rfl (by decide) (by decide) rfl]
  have hcast : castUpdate env 0 [("password", .str "hunter2")] =
      .ok (fun c => { c with password := "hunter2" }) := rfl
  simp [update, Files.none, uploadAttachment, mergeUrl, convertDates, convertDate, spread,
    List.lookup, findByIdAndUpdate_some _ hid, hcast, findById, World.empty,
    Client.minimal, replaceFirst]

/-- Witness of C2 in the sample environment: the first ObjectId handed out is named by
twenty-four zeros. -/
theorem update_stores_plaintext_password_witness :
    (update sampleEnv
      (register sampleEnv World.empty 7
        [("mobile", "9990001111"), ("password", "pass123")]).2
      "000000000000000000000000" [("password", "hunter2")]
      (some Files.none)).2.db.map Client.password = ["hunter2"] :=
  update_stores_plaintext_password sampleEnv 7 "000000000000000000000000" (by decide)

/-- C7 fails on the code: an update without files whose body carries the member `photo`
stores the supplied string, here a local path, although the object store has returned no
URL at all. -/
theorem update_stores_caller_supplied_photo (env : Env) (salt : Nat) (param : String)
    (hid : env.castObjectId param = some 0) :
    (update env
      (register env World.empty salt
        [("mobile", "9990001111"), ("password", "pass123")]).2
      param [("photo", "uploads/local.png"), ("licenseFile", "/etc/passwd")]
      (some Files.none)).2.db.map (fun c => (c.photo, c.licenseFile)) =
      [(some "uploads/local.png", some "/etc/passwd")] ∧
    (update env
      (register env World.empty salt
        [("mobile", "9990001111"), ("password", "pass123")]).2
      param [("photo", "uploads/local.png"), ("licenseFile", "/etc/passwd")]
      (some Files.none)).2.cloud = [] := by
  rw [register_fresh env World.empty salt
    [("mobile", "9990001111"), ("password", "pass123")] "9990001111" "pass123"
    (by simp [World.empty]) rfl rfl (by decide) (by decide) rfl]
  have hcast : castUpdate env 0
      [("photo", .str "uploads/local.png"), ("licenseFile", .str "/etc/passwd")] =
      .ok (fun c => { c with photo := some "uploads/local.png",
                             licenseFile := some "/etc/passwd" }) := rfl
  simp [update, Files.none, uploadAttachment, mergeUrl, convertDates, convertDate, spread,
    List.lookup, findByIdAndUpdate_some _ hid, hcast, findById, World.empty,
    Client.minimal, replaceFirst]

/-- Witness of C7 in the sample environment. -/
theorem update_stores_caller_supplied_photo_witness :
    (update sampleEnv
      (register sampleEnv World.empty 7
        [("mobile", "9990001111"), ("password", "pass123")]).2
      "000000000000000000000000"
      [("photo", "uploads/local.png"), ("licenseFile", "/etc/passwd")]
      (some Files.none)).2.db.map (fun c => (c.photo, c.licenseFile)) =
      [(some "uploads/local.png", some "/etc/passwd")] :=
  (update_stores_caller_supplied_photo sampleEnv 7 "000000000000000000000000"
    (by decide)).1

/-- C5 fails on the code: when the upload of a staged photo fails, create and update
respond 500 and the staging file is still on disk; and a create that fails field
validation responds 400 without touching its staging file. -/
theorem staging_file_leaks :
    ((create offlineEnv
        (uploadFields World.empty (some ⟨"me.png", 1700000000000⟩) none).2 7
        [("firstName", "Asha"), ("mobile", "9990001111"), ("password", "pass123")]
        (some (uploadFields World.empty (some ⟨"me.png", 1700000000000⟩) none).1)).1.status
        = 500 ∧
      (create offlineEnv
        (uploadFields World.empty (some ⟨"me.png", 1700000000000⟩) none).2 7
        [("firstName", "Asha"), ("mobile", "9990001111"), ("password", "pass123")]
        (some (uploadFields World.empty (some ⟨"me.png", 1700000000000⟩) none).1)).2.fs =
        ["uploads/1700000000000-me.png"]) ∧
    ((update offlineEnv
        (uploadFields sampleWorld (some ⟨"me.png", 1700000000000⟩) none).2
        "000000000000000000000000" []
        (some (uploadFields sampleWorld (some ⟨"me.png", 1700000000000⟩) none).1)).1.status
        = 500 ∧
      (update offlineEnv
        (uploadFields sampleWorld (some ⟨"me.png", 1700000000000⟩) none).2
        "000000000000000000000000" []
        (some (uploadFields sampleWorld (some ⟨"me.png", 1700000000000⟩) none).1)).2.fs =
        ["uploads/1700000000000-me.png"]) ∧
    ((create sampleEnv
        (uploadFields World.empty (some ⟨"me.png", 1700000000000⟩) none).2 7
        [("mobile", "9990001111"), ("password", "pass123")]
        (some (uploadFields World.empty (some ⟨"me.png", 1700000000000⟩) none).1)).1.status
        = 400 ∧
      (create sampleEnv
        (uploadFields World.empty (some ⟨"me.png", 1700000000000⟩) none).2 7
        [("mobile", "9990001111"), ("password", "pass123")]
        (some (uploadFields World.empty (some ⟨"me.png", 1700000000000⟩) none).1)).2.fs =
        ["uploads/1700000000000-me.png"]) := by
  decide

/-- C8 fails on the code: after two clients are registered one after the other, the list
handler returns the older one first, since no document has a `createdAt` to sort by. -/
theorem list_returns_oldest_first (env : Env) (salt1 salt2 : Nat) :
    (list (register env
      (register env World.empty salt1 [("mobile", "9990001111"), ("password", "a1")]).2
      salt2 [("mobile", "9990002222"), ("password", "b2")]).2).1 =
    ⟨200, .clients
      [Client.minimal 0 "9990001111" (env.bcryptHash "a1" 10 salt1),
       Client.minimal 1 "9990002222" (env.bcryptHash "b2" 10 salt2)]⟩ := by
  rw [register_fresh env World.empty salt1 [("mobile", "9990001111"), ("password", "a1")]
    "9990001111" "a1" (by simp [World.empty]) rfl rfl (by decide) (by decide) rfl]
  rw [register_fresh env _ salt2 [("mobile", "9990002222"), ("password", "b2")]
    "9990002222" "b2" (by simp [World.empty, Client.minimal]) rfl rfl (by decide)
    (by decide) (by simp [findOne, World.empty, Client.minimal])]
  rw [list_natural_order]
  rfl

end DrivingBackend
